import Mathlib

/-!
Shallow embedding of the Domain Registry & Verification Engine of the
zulip-desktop repository (file `app/renderer/js/utils/domain-util.js`),
together with theorems settling the frozen claims about it.

Modelling conventions:
* JS strings are Lean `String`; `charCodeAt` is modelled by `Char.toNat`
  (exact for all basic-multilingual-plane characters, which covers URLs).
* 32-bit machine arithmetic is `Nat` taken `% 4294967296`; the final
  `hash >>> 0` of the source is the identity on that representation.
* Network and dialog I/O is an explicit oracle argument; file-system and
  store side effects are recorded in an explicit effect trace.
* Promise resolution is `Except.ok`, promise rejection is `Except.error`.
-/

namespace DomainRegistry

/-- One stored server record, the `serverConf` shape of `domain-util.js`
(`icon`, `url`, `alias`, `ignoreCerts`). -/
structure ServerConf where
  url : String
  /-- the source field `alias` (a reserved word in Lean) -/
  aliasName : String
  icon : String
  ignoreCerts : Bool
  deriving Repr, DecidableEq

instance : Inhabited ServerConf := ⟨⟨"", "", "", false⟩⟩

/-- `const defaultIconUrl = '../renderer/img/icon.png';` -/
def defaultIconUrl : String := "../renderer/img/icon.png"

/-- Does the character list start with the given prefix list?  Used to model
`String.prototype.indexOf(needle) === 0` and `String.prototype.startsWith`. -/
def startsWithList : List Char → List Char → Bool
  | _, [] => true
  | [], _ :: _ => false
  | a :: as, b :: bs => a == b && startsWithList as bs

/-- Substring containment on character lists, modelling
`String.prototype.indexOf(needle) >= 0` / `String.prototype.includes`. -/
def includesList : List Char → List Char → Bool
  | [], needle => needle.isEmpty
  | h :: t, needle => startsWithList (h :: t) needle || includesList t needle

/-- `hay.indexOf(needle) >= 0` for JS strings. -/
def jsIncludes (hay needle : String) : Bool := includesList hay.data needle.data

/-- `formatUrl(domain)` of `domain-util.js`:
`domain.indexOf('http') === 0` keeps the input unchanged; otherwise
`domain.indexOf('localhost:') >= 0` selects the `http://` prefix and all
remaining inputs get the `https://` prefix. -/
def formatUrl (domain : String) : String :=
  if startsWithList domain.data "http".data then domain
  else if jsIncludes domain "localhost:" then "http://" ++ domain
  else "https://" ++ domain

/-- `duplicateDomain(domain)`: format the url, then scan the stored servers
for an exact (`===`) string match on `url`. -/
def duplicateDomain (servers : List ServerConf) (domain : String) : Bool :=
  let d := formatUrl domain
  servers.any (fun s => s.url == d)

/-- One character of the `escape-html` package: `&`, `<`, `>`, `"` and the
apostrophe are replaced by their HTML entities. -/
def escapeHtmlChar (c : Char) : String :=
  if c = '&' then "&amp;"
  else if c = '<' then "&lt;"
  else if c = '>' then "&gt;"
  else if c = '"' then "&quot;"
  else if c = '\'' then "&#39;"
  else String.singleton c

/-- `escape(str)` of the `escape-html` package, used for `realm_name`. -/
def escapeHtml (s : String) : String := String.join (s.data.map escapeHtmlChar)

deriving instance DecidableEq for Except

/-- A JS value as far as the error-handling code observes it: `undefined`,
a string, or a non-string object carrying its `toString()` text. -/
inductive JsVal where
  | undef
  | str (s : String)
  | obj (s : String)
  deriving Repr, DecidableEq

/-- JS truthiness of a `JsVal` (`undefined` and `''` are falsy). -/
def JsVal.truthy : JsVal → Bool
  | .undef => false
  | .str s => !s.isEmpty
  | .obj _ => true

/-- `String(v)` / `v.toString()`. -/
def JsVal.toStr : JsVal → String
  | .undef => "undefined"
  | .str s => s
  | .obj s => s

/-- `err || ''` of `checkDomain`: a falsy value is replaced by `''`. -/
def jsOrEmpty (v : JsVal) : JsVal := if v.truthy then v else .str ""

/-- Modelled from the spec: `resources/messages.js` is not under `src/`;
only its callers are.  The "no organizations" variant of the invalid-server
message for a reachable host that is not a valid Zulip organization. -/
def noOrgsError (domain : String) : String :=
  domain ++ " is not a valid Zulip organization."

/-- Modelled from the spec: `resources/messages.js` is not under `src/`.
The generic invalid-server message. -/
def invalidZulipServerError (domain : String) : String :=
  domain ++ " does not appear to be a valid Zulip server."

/-- Side effects the registry code performs, recorded as a trace. -/
inductive Effect where
  | netRequest (url : String)
  | showDialog
  | ensureDir (dir : String)
  | openWriteStream (path : String)
  | dbAppend (conf : ServerConf)
  | dbSet (index : Nat) (conf : ServerConf)
  | dbDelete (index : Nat)
  deriving Repr, DecidableEq

/-- Replay the store-mutating effects of a trace on a domain collection;
network, dialog and file-system effects leave the store unchanged. -/
def applyEffect (domains : List ServerConf) : Effect → List ServerConf
  | .dbAppend c => domains ++ [c]
  | .dbSet i c => domains.set i c
  | .dbDelete i => domains.eraseIdx i
  | _ => domains

def applyEffects (domains : List ServerConf) (effs : List Effect) : List ServerConf :=
  effs.foldl applyEffect domains

/-- The parsed JSON body of `/api/v1/server_settings`, as far as
`getServerSettings` inspects it.  `realm_icon = none` models an absent
field (`hasOwnProperty('realm_icon')` false). -/
structure SettingsBody where
  realm_icon : Option String
  realm_uri : String
  realm_name : String
  deriving Repr, DecidableEq

/-- Outcome of one `request(...)` round-trip: either a transport error
(callback `error` truthy, `response` undefined), or a response with a
status code, parsed body, and the `toString()` text of the response
object. -/
inductive ReqOutcome where
  | reqError (e : String)
  | reqResponse (status : Nat) (body : SettingsBody) (respToString : String)
  deriving Repr, DecidableEq

/-- `domain + '/api/v1/server_settings'`. -/
def settingsUrl (domain : String) : String := domain ++ "/api/v1/server_settings"

/-- Result of `getServerSettings(domain, ignoreCerts)` for a given request
outcome.  Faithful to the source: on `!error && statusCode === 200` with a
present, non-empty (truthy) `realm_icon` it resolves the built record
(resolving a root-relative icon against `realm_uri`, HTML-escaping
`realm_name`); on 200 without that field it rejects the string
`noOrgsError(domain)`; on every other outcome it rejects `response` —
which is `undefined` when the transport errored, and the response object
otherwise. -/
def getServerSettingsResult (domain : String) (ignoreCerts : Bool)
    (o : ReqOutcome) : Except JsVal ServerConf :=
  match o with
  | .reqError _ => .error .undef
  | .reqResponse status body respToString =>
    if status == 200 then
      match body.realm_icon with
      | some ic =>
        if !ic.isEmpty then
          .ok { icon := if startsWithList ic.data "/".data
                        then body.realm_uri ++ ic else ic,
                url := body.realm_uri,
                aliasName := escapeHtml body.realm_name,
                ignoreCerts := ignoreCerts }
        else .error (.str (noOrgsError domain))
      | none => .error (.str (noOrgsError domain))
    else .error (.obj respToString)

/-- Effect trace of one `getServerSettings` call: the single request. -/
def getServerSettingsEffects (domain : String) : List Effect :=
  [.netRequest (settingsUrl domain)]

/-- Values `checkDomain`/`checkCertError` can throw: an `Error` object with
a message, or a plain thrown string. -/
inductive CheckErr where
  | errorObj (msg : String)
  | thrownStr (s : String)
  deriving Repr, DecidableEq

/-- `checkCertError(domain, serverConf, error, silent)`.  `dialogChoice` is
the user's answer to the trust prompt (`0` = Yes), `retry` the outcome of
the re-issued settings request after acceptance.  In silent mode the
passed-in `serverConf` is returned without any prompt. -/
def checkCertError (domain : String) (serverConf : ServerConf) (error : JsVal)
    (silent : Bool) (dialogChoice : Nat) (retry : ReqOutcome) :
    Except CheckErr ServerConf × List Effect :=
  if silent then
    (.ok serverConf, [])
  else
    if dialogChoice == 0 then
      -- user accepted: serverConf.ignoreCerts = true, then retry
      let conf := { serverConf with ignoreCerts := true }
      match getServerSettingsResult domain true retry with
      | .ok c => (.ok c, [.showDialog] ++ getServerSettingsEffects domain)
      | .error _ =>
        if error == .str (noOrgsError domain) then
          (.error (.errorObj (noOrgsError domain)),
            [.showDialog] ++ getServerSettingsEffects domain)
        else
          (.ok conf, [.showDialog] ++ getServerSettingsEffects domain)
    else
      (.error (.errorObj "Untrusted certificate."), [.showDialog])

/-- The I/O oracle for one `checkDomain` call: the first settings request's
outcome, the trust-prompt answer, and the retried request's outcome. -/
structure CheckOracle where
  firstReq : ReqOutcome
  dialogChoice : Nat
  retryReq : ReqOutcome
  deriving Repr, DecidableEq

/-- `checkDomain(domain, ignoreCerts = false, silent = false)`.
Duplicate check first (skipped when silent), then `formatUrl`, then the
settings request; on failure the error is classified: the whitelist test
`domain.indexOf(whitelistDomains) >= 0` coerces the one-element array to
the string `'zulipdev.org'`, and `certsError` checks `(err || '')
.toString().includes('certificate')`. -/
def checkDomain (servers : List ServerConf) (domain0 : String)
    (ignoreCerts : Bool) (silent : Bool) (o : CheckOracle) :
    Except CheckErr ServerConf × List Effect :=
  if !silent && duplicateDomain servers domain0 then
    (.error (.errorObj "This server has been added."), [])
  else
    let domain := formatUrl domain0
    let serverConf : ServerConf :=
      { icon := defaultIconUrl, url := domain, aliasName := domain,
        ignoreCerts := ignoreCerts }
    match getServerSettingsResult domain serverConf.ignoreCerts o.firstReq with
    | .ok conf => (.ok conf, getServerSettingsEffects domain)
    | .error err =>
      let error := jsOrEmpty err
      let certsError := jsIncludes error.toStr "certificate"
      if jsIncludes domain "zulipdev.org" || certsError then
        let r := checkCertError domain serverConf error silent
                   o.dialogChoice o.retryReq
        (r.1, getServerSettingsEffects domain ++ r.2)
      else
        (.error (.thrownStr (invalidZulipServerError domain)),
          getServerSettingsEffects domain)

/-- `url.charCodeAt(i)` for a character: the UTF-16 code unit, which for
basic-multilingual-plane characters is the code point. -/
def jsCharCode (c : Char) : Nat := c.toNat

/-- One iteration `hash = (hash * 33) ^ code` of the loop in
`generateFilePath`, on the unsigned 32-bit representation: JS applies
`ToInt32` to the product before the bitwise xor, which on bit patterns is
reduction mod `2^32`. -/
def hashStep (h c : Nat) : Nat := Nat.xor ((h * 33) % 4294967296) c

/-- The source's hash loop, shaped as in the source:
`let len = url.length; while (len) { hash = (hash*33) ^ url.charCodeAt(--len) }` —
the second argument is the current value of `len`. -/
def hashFromIndex (url : List Char) : Nat → Nat → Nat
  | hash, 0 => hash
  | hash, len + 1 => hashFromIndex url (hashStep hash (jsCharCode (url.getD len ' '))) len

/-- The full hash of `generateFilePath`: seed 5381, loop over all indices
from the last character down to the first; the final `hash >>> 0` is the
identity on this unsigned representation. -/
def jsHash (url : String) : Nat := hashFromIndex url.data 5381 url.data.length

/-- The basename part of a path: everything after the last `/`
(the whole string when there is no `/`). -/
def basenameChars (l : List Char) : List Char :=
  (l.reverse.takeWhile (fun c => c ≠ '/')).reverse

/-- Node's `path.extname` (posix): the suffix of the basename from its last
dot, unless the basename has no dot, its only relevant dot is its first
character (hidden files), or the basename is exactly `..`. -/
def pathExtname (url : String) : String :=
  let b := basenameChars url.data
  if b = ['.', '.'] then ""
  else
    let revb := b.reverse
    let afterDot := revb.takeWhile (fun c => c ≠ '.')
    if afterDot.length == revb.length then ""
    else if afterDot.length + 1 == revb.length then ""
    else String.mk ('.' :: afterDot.reverse)

/-- `generateFilePath(url)`: the `server-icons` directory under the user
data path, `path.extname(url).split('?')[0]` as extension (`split('?')[0]`
is the prefix before the first `?`), the rolling hash as file name, and
the directory-creation side effect.  The user data path is a parameter. -/
def generateFilePath (userData url : String) : String × List Effect :=
  let dir := userData ++ "/server-icons"
  let extension := String.mk ((pathExtname url).data.takeWhile (fun c => c ≠ '?'))
  let hash := jsHash url
  (dir ++ "/" ++ toString hash ++ extension, [.ensureDir dir])

/-- Outcome of the icon download attempt in `saveServerIcon`: the stream
completes, the response stream errors, the request emits an error, or
`request(...)` throws synchronously. -/
inductive IconOutcome where
  | respOk
  | respStreamError (e : String)
  | reqStreamError (e : String)
  | syncThrow (e : String)
  deriving Repr, DecidableEq

/-- `saveServerIcon(server, ignoreCerts)`.  Faithful to the source order:
the file path (with its `mkdir`) and the write stream are created first;
only then is the default-icon sentinel checked; every non-sentinel branch
attempts the request and resolves either the hashed file path (stream
finished) or the sentinel (any error). -/
def saveServerIcon (userData : String) (server : ServerConf)
    (ignoreCerts : Bool) (o : IconOutcome) : String × List Effect :=
  let url := server.icon
  let fp := generateFilePath userData url
  let effs := fp.2 ++ [Effect.openWriteStream fp.1]
  if url == defaultIconUrl then
    (defaultIconUrl, effs)
  else
    match o with
    | .respOk => (fp.1, effs ++ [.netRequest url])
    | .respStreamError _ => (defaultIconUrl, effs ++ [.netRequest url])
    | .reqStreamError _ => (defaultIconUrl, effs ++ [.netRequest url])
    | .syncThrow _ => (defaultIconUrl, effs ++ [.netRequest url])

/-- `updateDomain(index, server)`: `db.push('/domains[index]', server, true)`
overwrites the record at that position. -/
def updateDomain (domains : List ServerConf) (index : Nat)
    (server : ServerConf) : List ServerConf :=
  domains.set index server

/-- `removeDomain(index)`: `db.delete('/domains[index]')` removes the array
element at that position (a splice, compacting the array). -/
def removeDomain (domains : List ServerConf) (index : Nat) : List ServerConf :=
  domains.eraseIdx index

/-- `updateSavedServer(url, index)`: read `ignoreCerts` from the record at
`index`, silently re-verify, and only on resolution fetch the icon and
overwrite the record at `index`; a rejected `checkDomain` has no handler,
so the store is untouched. -/
def updateSavedServer (userData : String) (domains : List ServerConf)
    (url : String) (index : Nat) (o : CheckOracle) (io : IconOutcome) :
    List ServerConf × List Effect :=
  let ignoreCerts := (domains.getD index default).ignoreCerts
  match checkDomain domains url ignoreCerts true o with
  | (.error _, effs) => (domains, effs)
  | (.ok newServerConf, effs) =>
    let si := saveServerIcon userData newServerConf ignoreCerts io
    let newConf := { newServerConf with icon := si.1 }
    (updateDomain domains index newConf,
      effs ++ si.2 ++ [.dbSet index newConf])

/-- The icon-name hash as the spec words it: seed 5381, multiply-by-33 then
xor the character code, applied right-to-left over the URL's characters,
taken unsigned 32-bit.  Stated as a fold over the reversed character list,
to be compared with the source-shaped index loop `jsHash`. -/
def specHash (url : String) : Nat :=
  url.data.reverse.foldl (fun h c => hashStep h (jsCharCode c)) 5381

/-- The icon file name as the spec words it: the hash concatenated with the
URL's file extension, **the query string stripped from the URL before the
extension is extracted**. -/
def specFileName (url : String) : String :=
  toString (specHash url)
    ++ pathExtname (String.mk (url.data.takeWhile (fun c => c ≠ '?')))

/-! ## Helper lemmas -/

/-- The source-shaped index loop of the hash agrees with a left fold over
the reversed prefix of the processed characters. -/
theorem hashFromIndex_eq_foldl (l : List Char) :
    ∀ (n : Nat), n ≤ l.length → ∀ (h : Nat),
      hashFromIndex l h n
        = ((l.take n).reverse).foldl (fun a c => hashStep a (jsCharCode c)) h := by
  intro n
  induction n with
  | zero => intro _ h; simp [hashFromIndex]
  | succ m ih =>
    intro hle h
    have hm : m < l.length := Nat.lt_of_succ_le hle
    have hget : l.getD m ' ' = l[m] := List.getD_eq_getElem l ' ' hm
    have htake : l.take (m + 1) = l.take m ++ [l[m]] := by
      rw [List.take_succ, List.getElem?_eq_getElem hm]
      rfl
    simp only [hashFromIndex]
    rw [ih (Nat.le_of_lt hm) _, htake, hget, List.reverse_append,
        List.reverse_singleton, List.singleton_append, List.foldl_cons]

/-- The hash loop of `generateFilePath` equals the spec's right-to-left
fold. -/
theorem jsHash_eq_specHash (url : String) : jsHash url = specHash url := by
  rw [jsHash, specHash,
      hashFromIndex_eq_foldl url.data url.data.length (Nat.le_refl _) 5381,
      List.take_length]

/-- Erasing an in-range index shortens the list by exactly one. -/
theorem length_removeDomain_lt {α : Type} (l : List α) (k : Nat)
    (hk : k < l.length) : (l.eraseIdx k).length = l.length - 1 := by
  induction l generalizing k with
  | nil => simp at hk
  | cons a t ih =>
    cases k with
    | zero => simp [List.eraseIdx]
    | succ k' =>
      have hk' : k' < t.length := by simpa using hk
      simp only [List.eraseIdx, List.length_cons]
      rw [ih k' hk']
      omega

/-- Elements above the erased index shift down by one. -/
theorem getElem?_eraseIdx_gt {α : Type} (l : List α) (k j : Nat)
    (hkj : k < j) : (l.eraseIdx k)[j - 1]? = l[j]? := by
  induction l generalizing k j with
  | nil => simp [List.eraseIdx]
  | cons a t ih =>
    cases k with
    | zero =>
      obtain ⟨j', rfl⟩ : ∃ j', j = j' + 1 := ⟨j - 1, by omega⟩
      simp [List.eraseIdx]
    | succ k' =>
      obtain ⟨j', rfl⟩ : ∃ j', j = j' + 1 := ⟨j - 1, by omega⟩
      have hk'j' : k' < j' := by omega
      obtain ⟨j'', rfl⟩ : ∃ j'', j' = j'' + 1 := ⟨j' - 1, by omega⟩
      have := ih k' (j'' + 1) hk'j'
      simpa [List.eraseIdx] using this

/-- Appending a non-empty prefix changes a string. -/
theorem prefix_append_ne (p s : String) (hp : p.data ≠ []) : p ++ s ≠ s := by
  intro heq
  have hd : (p ++ s).data = s.data := congrArg String.data heq
  rw [String.data_append] at hd
  have hlen := congrArg List.length hd
  rw [List.length_append] at hlen
  have : p.data.length = 0 := by omega
  exact hp (List.length_eq_zero.mp this)

/-! ## Claim theorems -/

/-- C3: for any input URL whatsoever (any string, including unreachable
hosts, malformed URLs and the default-icon sentinel) and any outcome of the
download attempt, `saveServerIcon` resolves — never rejects — and the
resolved value is either the hash-named local file path
(`<userData>/server-icons/<hash><extension>`) or the default-icon
sentinel. -/
theorem saveServerIcon_total (userData : String) (server : ServerConf)
    (ic : Bool) (o : IconOutcome) :
    (saveServerIcon userData server ic o).1 = defaultIconUrl
  ∨ (saveServerIcon userData server ic o).1
      = userData ++ "/server-icons" ++ "/" ++ toString (jsHash server.icon)
        ++ String.mk ((pathExtname server.icon).data.takeWhile (fun c => c ≠ '?')) := by
  cases o <;> by_cases hic : (server.icon == defaultIconUrl) = true <;>
    simp [saveServerIcon, generateFilePath, hic]

/-- C10: on every call to `saveServerIcon` — including one whose icon URL
is already the default-icon sentinel — the hash-named destination path is
computed (creating the `server-icons` directory) and a write stream to it
is opened before the sentinel check, so both file-system effects occur on
every call; when the icon is the sentinel, the call still resolves
immediately with the sentinel after having performed exactly those two
effects. -/
theorem saveServerIcon_eager_fs_effects (userData : String)
    (server : ServerConf) (ic : Bool) (o : IconOutcome) :
    (saveServerIcon userData server ic o).2.take 2
      = [Effect.ensureDir (userData ++ "/server-icons"),
         Effect.openWriteStream (generateFilePath userData server.icon).1]
  ∧ (server.icon = defaultIconUrl →
      saveServerIcon userData server ic o
        = (defaultIconUrl,
           [Effect.ensureDir (userData ++ "/server-icons"),
            Effect.openWriteStream (generateFilePath userData server.icon).1])) := by
  constructor
  · cases o <;> by_cases hic : (server.icon == defaultIconUrl) = true <;>
      simp [saveServerIcon, generateFilePath, hic]
  · intro hicon
    cases o <;> simp [saveServerIcon, generateFilePath, hicon]

/-- Witness for C10 at a concrete sentinel-icon call: the directory and the
(hash-named) file for the sentinel path are still created. -/
theorem saveServerIcon_eager_fs_effects_witness :
    saveServerIcon "ud" ⟨"https://x", "x", defaultIconUrl, false⟩ false .respOk
      = (defaultIconUrl,
         [Effect.ensureDir "ud/server-icons",
          Effect.openWriteStream "ud/server-icons/3407234856.png"]) := by
  have h := (saveServerIcon_eager_fs_effects "ud"
    ⟨"https://x", "x", defaultIconUrl, false⟩ false .respOk).2 rfl
  exact h.trans (by decide)

/-- C4 counterexample: the spec says the query string is stripped from the
URL before the extension is extracted, but the source extracts
`path.extname` from the full URL and only then truncates at `?`.  For
`https://x/icon.png?v=1.2` the source computes extension `.2` while the
spec's rule gives `.png`. -/
theorem generateFilePath_query_dot_counterexample :
    (generateFilePath "ud" "https://x/icon.png?v=1.2").1
      = "ud/server-icons/2930827494.2"
  ∧ specFileName "https://x/icon.png?v=1.2" = "2930827494.png"
  ∧ (generateFilePath "ud" "https://x/icon.png?v=1.2").1
      ≠ "ud" ++ "/server-icons" ++ "/"
          ++ specFileName "https://x/icon.png?v=1.2" := by
  refine ⟨by decide, by decide, by decide⟩

/-- C4 amended: the local file name is the unsigned 32-bit rolling hash of
the URL (seed 5381, multiply-by-33-xor-code, right-to-left) concatenated
with `path.extname` of the **full** URL truncated at the first `?` (which
agrees with the spec's strip-query-first rule only when the query string
contains no dot); the name is a pure function of the URL, so two calls
with the same URL yield the same name. -/
theorem generateFilePath_hash_name (userData url : String) :
    (generateFilePath userData url).1
      = userData ++ "/server-icons" ++ "/" ++ toString (specHash url)
        ++ String.mk ((pathExtname url).data.takeWhile (fun c => c ≠ '?')) := by
  rw [generateFilePath, jsHash_eq_specHash]

/-- C5 counterexample: `formatUrl` keeps `httpexample.com` unchanged
because it begins with the four characters `http`, although it does not
begin with an HTTP/HTTPS scheme, where the claim demands the `https://`
prefix. -/
theorem formatUrl_http_prefix_counterexample :
    formatUrl "httpexample.com" = "httpexample.com"
  ∧ ¬ (startsWithList "httpexample.com".data "http://".data = true
       ∨ startsWithList "httpexample.com".data "https://".data = true)
  ∧ formatUrl "httpexample.com" ≠ "https://" ++ "httpexample.com" := by
  refine ⟨by decide, by decide, by decide⟩

/-- C5 amended: `formatUrl` is pure and total, returns the input unchanged
exactly when it begins with the literal string `http` (not necessarily a
full scheme), and otherwise prepends `http://` when the input contains the
substring `localhost:` (no port required) and `https://` in all remaining
cases. -/
theorem formatUrl_characterization (s : String) :
    (formatUrl s = s ↔ startsWithList s.data "http".data = true)
  ∧ (startsWithList s.data "http".data = false →
      formatUrl s
        = if jsIncludes s "localhost:" then "http://" ++ s else "https://" ++ s) := by
  constructor
  · constructor
    · intro heq
      by_contra hns
      have hns' : startsWithList s.data "http".data = false :=
        Bool.eq_false_iff.mpr hns
      rw [formatUrl, hns'] at heq
      simp only [Bool.false_eq_true, if_false] at heq
      by_cases hl : jsIncludes s "localhost:" = true
      · rw [if_pos hl] at heq
        exact prefix_append_ne "http://" s (by decide) heq
      · rw [if_neg hl] at heq
        exact prefix_append_ne "https://" s (by decide) heq
    · intro hs
      rw [formatUrl, hs]
      simp
  · intro hns
    rw [formatUrl, hns]
    simp

/-- Witness for C5 amended: a bare host gets the `https://` prefix. -/
theorem formatUrl_characterization_witness :
    formatUrl "chat.example.com"
      = if jsIncludes "chat.example.com" "localhost:"
        then "http://" ++ "chat.example.com"
        else "https://" ++ "chat.example.com" :=
  (formatUrl_characterization "chat.example.com").2 (by decide)

/-- C6: when `checkDomain` is called with `silent = false` and the
normalized URL already equals (by exact string equality, with no
trailing-slash or case normalization) the `url` of a stored record, it
fails with the duplicate-server error, with an empty effect trace — so
before any network request — and replaying the trace leaves the store
unchanged. -/
theorem checkDomain_duplicate_fail_fast (servers : List ServerConf)
    (url : String) (ic : Bool) (o : CheckOracle)
    (hmem : formatUrl url ∈ servers.map ServerConf.url) :
    checkDomain servers url ic false o
      = (.error (.errorObj "This server has been added."), [])
  ∧ applyEffects servers (checkDomain servers url ic false o).2 = servers := by
  have hdup : duplicateDomain servers url = true := by
    rw [duplicateDomain, List.any_eq_true]
    obtain ⟨s, hs, hurl⟩ := List.mem_map.mp hmem
    exact ⟨s, hs, by simp [hurl]⟩
  have h : checkDomain servers url ic false o
      = (.error (.errorObj "This server has been added."), []) := by
    rw [checkDomain.eq_def]
    simp [hdup]
  exact ⟨h, by rw [h]; rfl⟩

/-- Witness for C6: adding an already-stored URL fails with the
duplicate-server error without any effect. -/
theorem checkDomain_duplicate_fail_fast_witness :
    checkDomain [⟨"https://chat.example.com", "Ex", "/i.png", false⟩]
        "https://chat.example.com" false false
        ⟨.reqError "unused", 1, .reqError "unused"⟩
      = (.error (.errorObj "This server has been added."), []) :=
  (checkDomain_duplicate_fail_fast
    [⟨"https://chat.example.com", "Ex", "/i.png", false⟩]
    "https://chat.example.com" false
    ⟨.reqError "unused", 1, .reqError "unused"⟩ (by decide)).1

/-- C7: on HTTP 200 with a JSON body whose `realm_icon` is present and
non-empty (truthy), the verifier resolves with a record whose `url` is the
server-reported `realm_uri`, whose alias is the HTML-escaped `realm_name`,
whose icon is the absolute icon URL (a `realm_icon` beginning with `/` is
resolved against `realm_uri`), and whose `ignoreCerts` equals the flag
passed in. -/
theorem getServerSettings_success_record (domain : String) (ic : Bool)
    (body : SettingsBody) (respStr : String) (iconUrl : String)
    (hicon : body.realm_icon = some iconUrl)
    (hne : iconUrl.isEmpty = false) :
    getServerSettingsResult domain ic (.reqResponse 200 body respStr)
      = .ok { url := body.realm_uri,
              aliasName := escapeHtml body.realm_name,
              icon := if startsWithList iconUrl.data "/".data
                      then body.realm_uri ++ iconUrl else iconUrl,
              ignoreCerts := ic } := by
  rw [getServerSettingsResult.eq_def]
  simp [hicon, hne]

/-- Witness for C7: a concrete 200 response with a root-relative icon and
a realm name needing HTML escaping. -/
theorem getServerSettings_success_record_witness :
    getServerSettingsResult "https://chat.example.com" false
        (.reqResponse 200 ⟨some "/icon.png", "https://chat.example.com", "Ex&Co"⟩ "resp")
      = .ok ⟨"https://chat.example.com", "Ex&amp;Co",
             "https://chat.example.com/icon.png", false⟩ := by
  have h := getServerSettings_success_record "https://chat.example.com" false
    ⟨some "/icon.png", "https://chat.example.com", "Ex&Co"⟩ "resp" "/icon.png"
    rfl (by decide)
  exact h.trans (by decide)

/-- C8: removing index `k` from a collection of `N` records (`0 ≤ k < N`)
yields a collection of length `N − 1` in which every record formerly at
index `j > k` now sits at index `j − 1`: indices stay dense. -/
theorem removeDomain_compacts (domains : List ServerConf) (k : Nat)
    (hk : k < domains.length) :
    (removeDomain domains k).length = domains.length - 1
  ∧ ∀ j, k < j → j < domains.length →
      (removeDomain domains k)[j - 1]? = domains[j]? := by
  refine ⟨length_removeDomain_lt domains k hk, ?_⟩
  intro j hkj _
  exact getElem?_eraseIdx_gt domains k j hkj

/-- Witness for C8 on a concrete three-record collection, removing the
middle record: the length drops to two and the last record moves down. -/
theorem removeDomain_compacts_witness :
    (removeDomain [⟨"u0", "a0", "i0", false⟩, ⟨"u1", "a1", "i1", false⟩,
        ⟨"u2", "a2", "i2", true⟩] 1).length = 2
  ∧ (removeDomain [⟨"u0", "a0", "i0", false⟩, ⟨"u1", "a1", "i1", false⟩,
        ⟨"u2", "a2", "i2", true⟩] 1)[1]? = some ⟨"u2", "a2", "i2", true⟩ := by
  have h := removeDomain_compacts
    [⟨"u0", "a0", "i0", false⟩, ⟨"u1", "a1", "i1", false⟩,
     ⟨"u2", "a2", "i2", true⟩] 1 (by decide)
  exact ⟨h.1, (h.2 2 (by decide) (by decide)).trans (by decide)⟩

/-- C9: when verification fails non-silently with an error the code
classifies as certificate-related (its text contains `certificate`) and
the user declines the trust prompt, `checkDomain` fails with the
untrusted-certificate error, and replaying the effect trace leaves the
stored domain collection unchanged (in particular its length is
unchanged). -/
theorem checkDomain_cert_decline (servers : List ServerConf) (url : String)
    (ic : Bool) (o : CheckOracle) (ev : JsVal)
    (hnodup : duplicateDomain servers url = false)
    (herr : getServerSettingsResult (formatUrl url) ic o.firstReq = .error ev)
    (hcert : jsIncludes (jsOrEmpty ev).toStr "certificate" = true)
    (hdecline : o.dialogChoice ≠ 0) :
    (checkDomain servers url ic false o).1
      = .error (.errorObj "Untrusted certificate.")
  ∧ applyEffects servers (checkDomain servers url ic false o).2 = servers := by
  have hd : (o.dialogChoice == 0) = false := by
    simpa using hdecline
  have h : checkDomain servers url ic false o
      = (.error (.errorObj "Untrusted certificate."),
         getServerSettingsEffects (formatUrl url) ++ [.showDialog]) := by
    rw [checkDomain.eq_def]
    simp only [hnodup, Bool.not_false, Bool.true_and, Bool.false_eq_true,
      if_false, herr, hcert, Bool.or_true, if_true]
    rw [checkCertError.eq_def]
    simp [hd]
  rw [h]
  exact ⟨rfl, rfl⟩

/-- Witness for C9: a non-200 response whose text mentions a certificate,
followed by the user declining the prompt. -/
theorem checkDomain_cert_decline_witness :
    (checkDomain [] "https://selfsigned.example.com" false false
        ⟨.reqResponse 500 ⟨none, "", ""⟩ "Error: self signed certificate", 1,
         .reqError "unused"⟩).1
      = .error (.errorObj "Untrusted certificate.")
  ∧ applyEffects []
      (checkDomain [] "https://selfsigned.example.com" false false
        ⟨.reqResponse 500 ⟨none, "", ""⟩ "Error: self signed certificate", 1,
         .reqError "unused"⟩).2 = [] :=
  checkDomain_cert_decline [] "https://selfsigned.example.com" false
    ⟨.reqResponse 500 ⟨none, "", ""⟩ "Error: self signed certificate", 1,
     .reqError "unused"⟩
    (.obj "Error: self signed certificate") (by decide) (by decide) (by decide)
    (by decide)

/-- C2 counterexample: `checkDomain` with `silent = true` does reject.  A
transport failure (unreachable host) makes `getServerSettings` reject with
the undefined `response`, which is not classified as certificate-related,
and `https://example.com` is not whitelisted, so silent `checkDomain`
rejects with the invalid-server error instead of resolving. -/
theorem checkDomain_silent_can_reject :
    (checkDomain [] "https://example.com" false true
        ⟨.reqError "getaddrinfo ENOTFOUND", 1, .reqError "unused"⟩).1
      = .error (.thrownStr (invalidZulipServerError "https://example.com")) := by
  decide

/-- C2 amended: with `silent = true`, `checkDomain` never shows the trust
prompt; when verification fails it resolves — with the freshly built
default record, not the previous one — exactly when the failure is
classified certificate-related (error text contains `certificate`) or the
formatted domain contains `zulipdev.org`, and rejects with the
invalid-server error on every other failure. -/
theorem checkDomain_silent_no_prompt_resolution (servers : List ServerConf)
    (domain : String) (ic : Bool) (o : CheckOracle) (ev : JsVal)
    (herr : getServerSettingsResult (formatUrl domain) ic o.firstReq = .error ev) :
    Effect.showDialog ∉ (checkDomain servers domain ic true o).2
  ∧ ((jsIncludes (formatUrl domain) "zulipdev.org" = true
      ∨ jsIncludes (jsOrEmpty ev).toStr "certificate" = true) →
      (checkDomain servers domain ic true o).1
        = .ok { icon := defaultIconUrl, url := formatUrl domain,
                aliasName := formatUrl domain, ignoreCerts := ic })
  ∧ (jsIncludes (formatUrl domain) "zulipdev.org" = false →
      jsIncludes (jsOrEmpty ev).toStr "certificate" = false →
      (checkDomain servers domain ic true o).1
        = .error (.thrownStr (invalidZulipServerError (formatUrl domain)))) := by
  by_cases hb : (jsIncludes (formatUrl domain) "zulipdev.org"
      || jsIncludes (jsOrEmpty ev).toStr "certificate") = true
  · have h : checkDomain servers domain ic true o
        = (.ok { icon := defaultIconUrl, url := formatUrl domain,
                 aliasName := formatUrl domain, ignoreCerts := ic },
           getServerSettingsEffects (formatUrl domain) ++ []) := by
      rw [checkDomain.eq_def]
      simp only [Bool.not_true, Bool.false_and, Bool.false_eq_true, if_false,
        herr, hb, if_true]
      rw [checkCertError.eq_def]
      simp
    rw [h]
    refine ⟨by simp [getServerSettingsEffects], fun _ => rfl, ?_⟩
    intro hwl hcert
    rw [hwl, hcert] at hb
    simp at hb
  · have hb' : (jsIncludes (formatUrl domain) "zulipdev.org"
        || jsIncludes (jsOrEmpty ev).toStr "certificate") = false :=
      Bool.eq_false_iff.mpr hb
    have h : checkDomain servers domain ic true o
        = (.error (.thrownStr (invalidZulipServerError (formatUrl domain))),
           getServerSettingsEffects (formatUrl domain)) := by
      rw [checkDomain.eq_def]
      simp only [Bool.not_true, Bool.false_and, Bool.false_eq_true, if_false,
        herr, hb', Bool.false_eq_true, if_false]
    rw [h]
    refine ⟨by simp [getServerSettingsEffects], ?_, fun _ _ => rfl⟩
    intro hor
    rcases Bool.or_eq_false_iff.mp hb' with ⟨h1, h2⟩
    rcases hor with hwl | hcert
    · rw [hwl] at h1; exact absurd h1 (by decide)
    · rw [hcert] at h2; exact absurd h2 (by decide)

/-- Witness for C2 amended: a whitelisted dev domain with a failed request
never prompts and resolves with the default record. -/
theorem checkDomain_silent_no_prompt_resolution_witness :
    Effect.showDialog ∉ (checkDomain [] "https://a.zulipdev.org" false true
        ⟨.reqError "ECONNRESET", 1, .reqError "unused"⟩).2
  ∧ (checkDomain [] "https://a.zulipdev.org" false true
        ⟨.reqError "ECONNRESET", 1, .reqError "unused"⟩).1
      = .ok { icon := defaultIconUrl, url := formatUrl "https://a.zulipdev.org",
              aliasName := formatUrl "https://a.zulipdev.org",
              ignoreCerts := false } := by
  have h := checkDomain_silent_no_prompt_resolution [] "https://a.zulipdev.org"
    false ⟨.reqError "ECONNRESET", 1, .reqError "unused"⟩ .undef (by decide)
  exact ⟨h.1, h.2.1 (Or.inl (by decide))⟩

/-- C1 counterexample: a silent re-verification failure does **not** always
leave the stored record unchanged.  For a stored record whose URL contains
`zulipdev.org`, the settings request fails (so verification failed), yet
silent `checkDomain` resolves with the freshly built default record and
`updateSavedServer` overwrites index 0 with it, destroying the stored
alias and icon. -/
theorem updateSavedServer_silent_failure_overwrites :
    getServerSettingsResult (formatUrl "https://a.zulipdev.org") false
        (.reqError "ECONNREFUSED") = .error .undef
  ∧ (updateSavedServer "ud"
        [⟨"https://a.zulipdev.org", "Dev Server", "/icons/a.png", false⟩]
        "https://a.zulipdev.org" 0
        ⟨.reqError "ECONNREFUSED", 1, .reqError "unused"⟩ .respOk).1
      = [⟨"https://a.zulipdev.org", "https://a.zulipdev.org",
          defaultIconUrl, false⟩]
  ∧ (updateSavedServer "ud"
        [⟨"https://a.zulipdev.org", "Dev Server", "/icons/a.png", false⟩]
        "https://a.zulipdev.org" 0
        ⟨.reqError "ECONNREFUSED", 1, .reqError "unused"⟩ .respOk).1
      ≠ [⟨"https://a.zulipdev.org", "Dev Server", "/icons/a.png", false⟩] := by
  refine ⟨by decide, by decide, by decide⟩

/-- C1 amended: when the silent re-verification of `updateSavedServer`
fails with an error not classified certificate-related and the formatted
URL does not contain `zulipdev.org`, the silent `checkDomain` rejects, the
rejection is unhandled, and the stored collection — in particular the
record at index `i` — is unchanged.  (When the failure is
certificate-classified or the domain is whitelisted, the record is instead
overwritten with a freshly built default record.) -/
theorem updateSavedServer_nonCert_failure_unchanged (userData : String)
    (domains : List ServerConf) (url : String) (index : Nat)
    (o : CheckOracle) (io : IconOutcome) (ev : JsVal)
    (herr : getServerSettingsResult (formatUrl url)
        (domains.getD index default).ignoreCerts o.firstReq = .error ev)
    (hcert : jsIncludes (jsOrEmpty ev).toStr "certificate" = false)
    (hwl : jsIncludes (formatUrl url) "zulipdev.org" = false) :
    (updateSavedServer userData domains url index o io).1 = domains := by
  have h : checkDomain domains url
      (domains.getD index default).ignoreCerts true o
      = (.error (.thrownStr (invalidZulipServerError (formatUrl url))),
         getServerSettingsEffects (formatUrl url)) := by
    rw [checkDomain.eq_def]
    simp only [Bool.not_true, Bool.false_and, Bool.false_eq_true, if_false,
      herr, hwl, hcert, Bool.or_self, if_false]
  simp only [updateSavedServer, h]

/-- Witness for C1 amended: an ordinary domain whose silent refresh hits a
network error keeps its stored record. -/
theorem updateSavedServer_nonCert_failure_unchanged_witness :
    (updateSavedServer "ud"
        [⟨"https://chat.example.com", "Example", "/icons/e.png", false⟩]
        "https://chat.example.com" 0
        ⟨.reqError "ECONNRESET", 1, .reqError "unused"⟩ .respOk).1
      = [⟨"https://chat.example.com", "Example", "/icons/e.png", false⟩] :=
  updateSavedServer_nonCert_failure_unchanged "ud"
    [⟨"https://chat.example.com", "Example", "/icons/e.png", false⟩]
    "https://chat.example.com" 0
    ⟨.reqError "ECONNRESET", 1, .reqError "unused"⟩ .respOk .undef
    (by decide) (by decide) (by decide)

end DomainRegistry
